import Mathlib

/-!
Verification of the recipe-management REST API (user accounts, tags,
ingredients, recipes) against its natural-language specification.

The viewset logic is translated from `src/app/recipe/views.py` and the user
manager from `src/app/core/models.py`.  The entity model classes
(Tag, Ingredient, Recipe), the serializers and the user/token endpoints are
not present under `src/`; where a definition stands in for such missing code
its doc comment starts with `Modelled from the spec:`.

Conventions of the shallow embedding:
* database rows are structures, a database is lists of rows;
* an ORM queryset is evaluated to the list of rows the generated SQL would
  return, including the duplicate rows produced by many-to-many joins
  (one row per matching association) until an explicit `distinct()` removes
  them;
* Python exceptions (`ValueError` from `int(...)`) become `Except`;
* `order_by("-name")` / `order_by("-id")` become a merge sort with the
  corresponding descending comparator.
-/

deriving instance DecidableEq for Except

namespace RecipeApp

/-- Python exception raised by `int(...)` on a malformed string. -/
inductive PyError where
  | valueError
deriving DecidableEq

/-- Strip leading and trailing whitespace from a character list (the
whitespace handling of the Python `int` constructor and of `str.strip`). -/
def stripWs (cs : List Char) : List Char :=
  ((cs.dropWhile Char.isWhitespace).reverse.dropWhile Char.isWhitespace).reverse

/-- Parse a nonempty run of decimal digits; `none` otherwise. -/
def digitsToNat? (cs : List Char) : Option Nat :=
  if cs.isEmpty then none
  else cs.foldlM (fun acc c => if c.isDigit then some (acc * 10 + (c.toNat - 48)) else none) 0

/-- Python `int(string)` on a character list: optional surrounding
whitespace, an optional sign, then decimal digits; `none` models the
`ValueError` raised on any other shape. -/
def pyIntOfChars? (cs : List Char) : Option Int :=
  match stripWs cs with
  | '-' :: rest => (digitsToNat? rest).map (fun n => -(n : Int))
  | '+' :: rest => (digitsToNat? rest).map (fun n => (n : Int))
  | other => (digitsToNat? other).map (fun n => (n : Int))

/-- Python `int(string)`. -/
def pyInt? (s : String) : Option Int :=
  pyIntOfChars? s.toList

/-- Python `string.split(",")`: the empty string yields `[""]`, a trailing
comma yields a trailing empty segment. -/
def splitComma : List Char → List (List Char)
  | [] => [[]]
  | c :: rest =>
    if c = ',' then [] :: splitComma rest
    else
      match splitComma rest with
      | [] => [[c]]
      | seg :: segs => (c :: seg) :: segs

/-- RecipeViewSet private helper `_params_to_ints` from `views.py`:
`[int(str_id) for str_id in query_string.split(",")]`.  Any segment on
which `int` fails raises `ValueError`, which the view does not catch. -/
def params_to_ints (query_string : String) : Except PyError (List Int) :=
  (splitComma query_string.toList).mapM
    (fun str_id =>
      match pyIntOfChars? str_id with
      | some n => Except.ok n
      | none => Except.error PyError.valueError)

/-- Modelled from the spec: the Tag entity of the data model (name, owner
reference, many-to-many with Recipe); the model class is not under `src/`.
Users are identified by their numeric primary key. -/
structure Tag where
  id : Nat
  user : Nat
  name : String
deriving DecidableEq

/-- Modelled from the spec: the Ingredient entity of the data model (name,
owner reference, many-to-many with Recipe); the model class is not under
`src/`. -/
structure Ingredient where
  id : Nat
  user : Nat
  name : String
deriving DecidableEq

/-- Modelled from the spec: the Recipe entity of the data model (title, time
estimate, price, optional image reference, owner reference, many-to-many
with Tag and Ingredient); the model class is not under `src/`.  The primary
key `id` is the auto-increment insertion counter, and `tags` /
`ingredients` hold the association rows of the two many-to-many tables. -/
structure Recipe where
  id : Nat
  user : Nat
  title : String
  time_minutes : Nat
  price : Rat
  image : Option String
  tags : List Nat
  ingredients : List Nat
deriving DecidableEq

/-- The persistent store: one table per entity. -/
structure DB where
  tags : List Tag
  ingredients : List Ingredient
  recipes : List Recipe
deriving DecidableEq

/-- Lexicographic comparison of character lists by code point, the
collation used for `ORDER BY name`. -/
def charListLe : List Char → List Char → Bool
  | [], _ => true
  | _ :: _, [] => false
  | a :: as, b :: bs =>
    if a.toNat < b.toNat then true
    else if b.toNat < a.toNat then false
    else charListLe as bs

/-- Lexicographic string comparison by code point. -/
def strLe (a b : String) : Bool :=
  charListLe a.toList b.toList

/-- Insert an element into a list, before the first element it may precede
according to the comparator. -/
def insertBy {α : Type} (le : α → α → Bool) (a : α) : List α → List α
  | [] => [a]
  | b :: t => if le a b then a :: b :: t else b :: insertBy le a t

/-- Insertion sort by a comparator, the evaluation of an `ORDER BY` clause. -/
def sortBy {α : Type} (le : α → α → Bool) : List α → List α
  | [] => []
  | a :: t => insertBy le a (sortBy le t)

/-- Evaluation of `order_by("-name")`: sort descending by a string key. -/
def sortByNameDesc {α : Type} (key : α → String) (l : List α) : List α :=
  sortBy (fun a b => strLe (key b) (key a)) l

/-- Evaluation of `order_by("-id")`: sort descending by a numeric key. -/
def sortByIdDesc {α : Type} (key : α → Nat) (l : List α) : List α :=
  sortBy (fun a b => decide (key b ≤ key a)) l

/-- The `assigned_only` query parameter handling of
`BaseRecipeAttrViewset.get_queryset`:
`int(self.request.query_params.get("assigned_only", 0))`.  A missing
parameter defaults to the integer `0`; a present parameter is parsed with
`int`, whose failure is an uncaught `ValueError`. -/
def parseAssignedOnly (param : Option String) : Option Int :=
  match param with
  | none => some 0
  | some s => pyInt? s

/-- BaseRecipeAttrViewset.get_queryset from `views.py`, shared by the tag
and the ingredient viewset.  When `bool(int(assigned_only))` is true the
queryset is first filtered by `recipe__isnull=False`, a join against the
many-to-many table that yields one row per (entity, referencing recipe)
association — referencing recipes of any owner, not only of the caller.
The queryset is then filtered by `user=self.request.user`, ordered by
`-name`, and `distinct()` removes the duplicate rows of the join. -/
def baseAttrGetQueryset {α : Type} [DecidableEq α] (entities : List α)
    (entityId : α → Nat) (entityUser : α → Nat) (entityName : α → String)
    (recipeAssoc : Recipe → List Nat) (recipes : List Recipe)
    (assigned_only_param : Option String) (caller : Nat) :
    Except PyError (List α) :=
  match parseAssignedOnly assigned_only_param with
  | none => Except.error PyError.valueError
  | some n =>
    let joined :=
      if n ≠ 0 then
        entities.flatMap (fun e =>
          (recipes.filter (fun r => decide (entityId e ∈ recipeAssoc r))).map
            (fun _ => e))
      else entities
    Except.ok
      ((sortByNameDesc entityName
          (joined.filter (fun e => decide (entityUser e = caller)))).dedup)

/-- TagViewSet queryset: `BaseRecipeAttrViewset.get_queryset` over the tag
table. -/
def tagGetQueryset (db : DB) (assigned_only_param : Option String)
    (caller : Nat) : Except PyError (List Tag) :=
  baseAttrGetQueryset db.tags Tag.id Tag.user Tag.name Recipe.tags db.recipes
    assigned_only_param caller

/-- IngredientViewSet queryset: `BaseRecipeAttrViewset.get_queryset` over
the ingredient table. -/
def ingredientGetQueryset (db : DB) (assigned_only_param : Option String)
    (caller : Nat) : Except PyError (List Ingredient) :=
  baseAttrGetQueryset db.ingredients Ingredient.id Ingredient.user
    Ingredient.name Recipe.ingredients db.recipes assigned_only_param caller

/-- Evaluation of `queryset.filter(tags__id__in=ids)` (and of the analogous
ingredient filter): a join against the many-to-many table, yielding one row
per matching association, with no deduplication. -/
def filterByAssocIds (assocOf : Recipe → List Nat) (ids : List Int)
    (l : List Recipe) : List Recipe :=
  l.flatMap (fun r =>
    ((assocOf r).filter (fun aid => decide (Int.ofNat aid ∈ ids))).map
      (fun _ => r))

/-- One optional comma-separated id filter of `RecipeViewSet.get_queryset`:
skipped when the parameter is absent or the empty string (Python
truthiness of `if tags:`), otherwise parsed with `_params_to_ints`, whose
`ValueError` propagates. -/
def applyIdFilter (assocOf : Recipe → List Nat) (param : Option String)
    (l : List Recipe) : Except PyError (List Recipe) :=
  match param with
  | none => Except.ok l
  | some s =>
    if s = "" then Except.ok l
    else
      match params_to_ints s with
      | Except.error e => Except.error e
      | Except.ok ids => Except.ok (filterByAssocIds assocOf ids l)

/-- Characterization of one id filter of the recipe list: a row passes when
the parameter is absent or empty, or when at least one of its association
ids is among the parsed comma-separated ids (inclusive OR within the
filter). -/
def includeByIds (param : Option String) (assocIds : List Nat) : Bool :=
  match param with
  | none => true
  | some s =>
    if s = "" then true
    else
      match params_to_ints s with
      | Except.error _ => false
      | Except.ok ids => assocIds.any (fun a => decide (Int.ofNat a ∈ ids))

/-- RecipeViewSet.get_queryset from `views.py`: filter by
`user=self.request.user`, then optionally by `tags__id__in` and by
`ingredients__id__in` (each an additional many-to-many join), then
`order_by("-id")`.  No `distinct()` is applied. -/
def recipeGetQueryset (db : DB) (tags_param ingredients_param : Option String)
    (caller : Nat) : Except PyError (List Recipe) :=
  match applyIdFilter Recipe.tags tags_param
      (db.recipes.filter (fun r => decide (r.user = caller))) with
  | Except.error e => Except.error e
  | Except.ok l1 =>
    match applyIdFilter Recipe.ingredients ingredients_param l1 with
    | Except.error e => Except.error e
    | Except.ok l2 => Except.ok (sortByIdDesc Recipe.id l2)

/-- Detail retrieval for a recipe: `get_object()` looks the requested
primary key up inside `get_queryset()` (no filter query parameters on a
detail route), so a miss — including a recipe of another owner — surfaces
as not found (`none`). -/
def recipeDetail (db : DB) (caller : Nat) (pk : Nat) : Option Recipe :=
  match recipeGetQueryset db none none caller with
  | Except.ok l => l.find? (fun r => decide (r.id = pk))
  | Except.error _ => none

/-- HTTP outcome of a list request: a successful body, a 400 validation
response with field-level messages, or an unhandled exception (the
framework turns an uncaught `ValueError` into a server error, not a 400). -/
inductive Outcome (α : Type) where
  | ok (value : α)
  | clientError
  | serverError
deriving DecidableEq

/-- The recipe list request handler: evaluate
`RecipeViewSet.get_queryset`; nothing in `views.py` catches the
`ValueError` of `_params_to_ints`, so a parse failure is an unhandled
server error. -/
def recipeListRequest (db : DB) (tags_param ingredients_param : Option String)
    (caller : Nat) : Outcome (List Recipe) :=
  match recipeGetQueryset db tags_param ingredients_param caller with
  | Except.ok l => Outcome.ok l
  | Except.error _ => Outcome.serverError

/-- Request payload for creating a tag or an ingredient.  `requestedUser`
is any owner value the caller put in the payload; the view never reads it. -/
structure AttrPayload where
  name : String
  requestedUser : Option Nat
deriving DecidableEq

/-- BaseRecipeAttrViewset.perform_create from `views.py`:
`serializer.save(user=self.request.user)` binds the owner to the
authenticated caller, overriding any owner value in the payload. -/
def tagPerformCreate (payload : AttrPayload) (newId : Nat) (caller : Nat) : Tag :=
  { id := newId, user := caller, name := payload.name }

/-- BaseRecipeAttrViewset.perform_create for the ingredient viewset. -/
def ingredientPerformCreate (payload : AttrPayload) (newId : Nat)
    (caller : Nat) : Ingredient :=
  { id := newId, user := caller, name := payload.name }

/-- Request payload for creating or fully updating a recipe.  The tag and
ingredient id lists are optional in the wire payload; `requestedUser` is
any owner value the caller put in the payload, never read by the view. -/
structure RecipePayload where
  title : String
  time_minutes : Nat
  price : Rat
  tags : Option (List Nat)
  ingredients : Option (List Nat)
  requestedUser : Option Nat
deriving DecidableEq

/-- RecipeViewSet.perform_create from `views.py`:
`serializer.save(user=self.request.user)`. -/
def recipePerformCreate (payload : RecipePayload) (newId : Nat)
    (caller : Nat) : Recipe :=
  { id := newId, user := caller, title := payload.title,
    time_minutes := payload.time_minutes, price := payload.price,
    image := none, tags := payload.tags.getD [],
    ingredients := payload.ingredients.getD [] }

/-- Modelled from the spec: full update (PUT) through the recipe serializer
(not under `src/`) replaces the entire record — unspecified many-to-many
fields are cleared — and never touches the owner reference or the image. -/
def fullUpdateRecipe (payload : RecipePayload) (r : Recipe) : Recipe :=
  { r with
    title := payload.title,
    time_minutes := payload.time_minutes,
    price := payload.price,
    tags := payload.tags.getD [],
    ingredients := payload.ingredients.getD [] }

/-- Request payload of a partial update: every field optional. -/
structure PatchPayload where
  title : Option String
  time_minutes : Option Nat
  price : Option Rat
  tags : Option (List Nat)
  ingredients : Option (List Nat)
  requestedUser : Option Nat
deriving DecidableEq

/-- Modelled from the spec: partial update (PATCH) through the recipe
serializer (not under `src/`) replaces only the fields supplied and never
touches the owner reference or the image. -/
def patchUpdateRecipe (payload : PatchPayload) (r : Recipe) : Recipe :=
  { r with
    title := payload.title.getD r.title,
    time_minutes := payload.time_minutes.getD r.time_minutes,
    price := payload.price.getD r.price,
    tags := payload.tags.getD r.tags,
    ingredients := payload.ingredients.getD r.ingredients }

/-- Payload of a full update (PUT) whose wire body omits the tags field. -/
def putPayloadNoTags (title : String) (tm : Nat) (price : Rat)
    (ing : Option (List Nat)) (ru : Option Nat) : RecipePayload :=
  { title := title, time_minutes := tm, price := price, tags := none,
    ingredients := ing, requestedUser := ru }

/-- Payload of a partial update (PATCH) whose wire body supplies only the
tags field. -/
def patchPayloadOnlyTags (ts : List Nat) (ru : Option Nat) : PatchPayload :=
  { title := none, time_minutes := none, price := none, tags := some ts,
    ingredients := none, requestedUser := ru }

/-- Multipart payload of the image-upload endpoint.  `is_image` abstracts
the validity check of `RecipeImageSerializer` (not under `src/`): per the
spec the payload is valid exactly when it is an image. -/
structure ImagePayload where
  is_image : Bool
  filename : String
deriving DecidableEq

/-- Response of the image-upload endpoint: 200 with the serialized recipe
(carrying the accessible image location) or 400 with field errors. -/
inductive UploadResponse where
  | ok200 (image : Option String)
  | badRequest400
deriving DecidableEq

/-- RecipeViewSet.upload_image from `views.py`: when the serializer is
valid it saves and answers 200 with the serialized data, otherwise it
answers 400 with the errors and saves nothing.  The stored location of a
saved image is its media path. -/
def upload_image (recipe : Recipe) (payload : ImagePayload) :
    UploadResponse × Recipe :=
  if payload.is_image then
    let updated := { recipe with image := some ("uploads/recipe/" ++ payload.filename) }
    (UploadResponse.ok200 updated.image, updated)
  else
    (UploadResponse.badRequest400, recipe)

/-- Modelled from the spec: `set_password` stores only a hash of the raw
password, never the plaintext (an unusable marker when no password is
given).  The hash is abstracted as a tagged transformation of the raw
password, which is never equal to the plaintext itself. -/
def hashPassword (password : Option String) : String :=
  match password with
  | none => "!"
  | some p => "pbkdf2_sha256$" ++ p

/-- User row of `core/models.py` (class MyUser): email, name, password
hash, active/staff/superuser flags. -/
structure MyUser where
  email : String
  name : String
  passwordHash : String
  is_active : Bool
  is_staff : Bool
  is_superuser : Bool
deriving DecidableEq

/-- Split a character list at the LAST `@`, the behaviour of
`rsplit("@", 1)`; `none` when no `@` occurs. -/
def rsplitAtSign (cs : List Char) : Option (List Char × List Char) :=
  let rev := cs.reverse
  let afterRev := rev.takeWhile (fun c => c ≠ '@')
  match rev.drop afterRev.length with
  | [] => none
  | _ :: beforeRev => some (beforeRev.reverse, afterRev.reverse)

/-- BaseUserManager.normalize_email of the framework, as called by
`create_user`: strip surrounding whitespace, split at the last `@`, and
lowercase the domain part; a string with no `@` is returned unchanged. -/
def normalize_email (email : String) : String :=
  match rsplitAtSign (stripWs email.toList) with
  | none => email
  | some (namePart, domainPart) =>
    ⟨namePart ++ '@' :: domainPart.map Char.toLower⟩

/-- MyUserManager.create_user from `core/models.py`: raise `ValueError`
when the email is falsy (empty), otherwise normalize the email, set the
hashed password, save and return the user.  The returned pair is the new
row and the table after the save; on error the table is unchanged. -/
def create_user (db : List MyUser) (email : String) (password : Option String)
    (name : String) : Except PyError (MyUser × List MyUser) :=
  if email = "" then Except.error PyError.valueError
  else
    let u : MyUser :=
      { email := normalize_email email, name := name,
        passwordHash := hashPassword password, is_active := true,
        is_staff := false, is_superuser := false }
    Except.ok (u, db ++ [u])

/-- MyUserManager.create_superuser from `core/models.py`: `create_user`,
then set `is_superuser` and `is_staff` to `True` and save again. -/
def create_superuser (db : List MyUser) (email : String) (password : String) :
    Except PyError (MyUser × List MyUser) :=
  match create_user db email (some password) "" with
  | Except.error e => Except.error e
  | Except.ok (u, _) =>
    let su := { u with is_superuser := true, is_staff := true }
    Except.ok (su, db ++ [su])

/-- Row produced by a successful `create_user` call: normalized email,
hashed password, default flags. -/
def freshUser (email uname : String) (password : Option String) : MyUser :=
  { email := normalize_email email, name := uname,
    passwordHash := hashPassword password, is_active := true,
    is_staff := false, is_superuser := false }

/-- Row produced by a successful `create_superuser` call: the fresh user
with both elevation flags set. -/
def freshSuperuser (email pwd : String) : MyUser :=
  { freshUser email "" (some pwd) with
    is_staff := true,
    is_superuser := true }

/-- Check of a raw password against a stored hash, the framework
`check_password` over the modelled hash. -/
def checkPassword (raw : String) (u : MyUser) : Bool :=
  u.passwordHash == hashPassword (some raw)

/-- Outcome of the token endpoint: 200 with a token, or 400 with no token.
The 400 response is a single undistinguished value — it carries no
information about which check failed. -/
inductive TokenOutcome where
  | ok (token : String)
  | badRequest
deriving DecidableEq

/-- Modelled from the spec: the token endpoint (section 4.4; the user app
views and serializers are not under `src/`).  Both fields must be supplied
and non-blank, the email must belong to an existing user and the password
must match; every failure yields the same 400 response. -/
def createTokenRequest (users : List MyUser) (email password : Option String) :
    TokenOutcome :=
  match email, password with
  | some e, some p =>
    if e = "" then TokenOutcome.badRequest
    else if p = "" then TokenOutcome.badRequest
    else
      match users.find? (fun u => u.email == e) with
      | some u =>
        if checkPassword p u then TokenOutcome.ok ("token:" ++ e)
        else TokenOutcome.badRequest
      | none => TokenOutcome.badRequest
  | _, _ => TokenOutcome.badRequest

/-- Statement of claim C2 as written: a tag of the caller counted as
assigned only when some recipe OF THE CALLER references it. -/
def specAssignedToCallerRecipe (db : DB) (caller : Nat) (t : Tag) : Prop :=
  t ∈ db.tags ∧ t.user = caller ∧
    ∃ r ∈ db.recipes, r.user = caller ∧ t.id ∈ r.tags

instance (db : DB) (caller : Nat) (t : Tag) :
    Decidable (specAssignedToCallerRecipe db caller t) := by
  unfold specAssignedToCallerRecipe
  exact inferInstance

/-- Fixture: a tag owned by user 1. -/
def exTagOwned : Tag :=
  { id := 1, user := 1, name := "Vegan" }

/-- Fixture: a tag owned by user 2. -/
def exTagOther : Tag :=
  { id := 2, user := 2, name := "Meaty" }

/-- Fixture: an ingredient owned by user 1. -/
def exIngOwned : Ingredient :=
  { id := 1, user := 1, name := "Egg" }

/-- Fixture: an ingredient owned by user 2. -/
def exIngOther : Ingredient :=
  { id := 2, user := 2, name := "Rice" }

/-- Fixture: a recipe of user 1 referencing the tag and ingredient of
user 1. -/
def exRecipeOwned : Recipe :=
  { id := 1, user := 1, title := "Pancakes", time_minutes := 5, price := 3,
    image := none, tags := [1], ingredients := [1] }

/-- Fixture: a recipe of user 2 referencing the tag and ingredient of
user 2. -/
def exRecipeOther : Recipe :=
  { id := 2, user := 2, title := "Steak", time_minutes := 30, price := 20,
    image := none, tags := [2], ingredients := [2] }

/-- Fixture: a two-user database. -/
def exDb : DB :=
  { tags := [exTagOwned, exTagOther], ingredients := [exIngOwned, exIngOther],
    recipes := [exRecipeOwned, exRecipeOther] }

/-- Fixture: a tag of user 1 referenced only by a recipe of user 2. -/
def exCrossTag : Tag :=
  { id := 10, user := 1, name := "Cross" }

/-- Fixture: the recipe of user 2 referencing the tag of user 1 (such
cross-user references are reachable: the recipe create endpoint accepts
tag ids of other users, exercised by test_create_recipe_with_other_user_tag). -/
def exCrossRecipe : Recipe :=
  { id := 20, user := 2, title := "Borrowed", time_minutes := 1, price := 1,
    image := none, tags := [10], ingredients := [] }

/-- Fixture: database where the only recipe referencing the tag of user 1
belongs to user 2. -/
def exDbCross : DB :=
  { tags := [exCrossTag], ingredients := [], recipes := [exCrossRecipe] }

/-- Fixture: a recipe of user 1 carrying two tag associations. -/
def exDupRecipe : Recipe :=
  { id := 5, user := 1, title := "Dup", time_minutes := 1, price := 1,
    image := none, tags := [1, 2], ingredients := [] }

/-- Fixture: database for the duplicate-row behaviour of the recipe list. -/
def exDbDup : DB :=
  { tags := [], ingredients := [], recipes := [exDupRecipe] }

/-- Fixture: a stored user for the token endpoint. -/
def exAuthUser : MyUser :=
  { email := "test@test.com", name := "", passwordHash := hashPassword (some "testpass1234"),
    is_active := true, is_staff := false, is_superuser := false }

/-- Fixture: a recipe for the image-upload witnesses. -/
def exUploadRecipe : Recipe :=
  { id := 3, user := 1, title := "Toast", time_minutes := 2, price := 1,
    image := none, tags := [], ingredients := [] }

/-- Fixture: a non-image payload. -/
def exBadPayload : ImagePayload :=
  { is_image := false, filename := "notes.txt" }

/-- Fixture: a valid image payload. -/
def exGoodPayload : ImagePayload :=
  { is_image := true, filename := "photo.jpg" }

/-! Helper lemmas about the sorting and join combinators. -/

theorem insertBy_perm {α : Type} (le : α → α → Bool) (a : α) :
    ∀ l : List α, (insertBy le a l).Perm (a :: l)
  | [] => List.Perm.refl _
  | b :: t => by
    unfold insertBy
    split
    · exact List.Perm.refl _
    · exact ((insertBy_perm le a t).cons b).trans (List.Perm.swap a b t)

theorem sortBy_perm {α : Type} (le : α → α → Bool) :
    ∀ l : List α, (sortBy le l).Perm l
  | [] => List.Perm.refl _
  | a :: t => by
    unfold sortBy
    exact (insertBy_perm le a (sortBy le t)).trans ((sortBy_perm le t).cons a)

theorem pairwise_insertBy {α : Type} (le : α → α → Bool)
    (htrans : ∀ a b c, le a b = true → le b c = true → le a c = true)
    (htot : ∀ a b, le a b = true ∨ le b a = true) (a : α) :
    ∀ l : List α, l.Pairwise (fun x y => le x y = true) →
      (insertBy le a l).Pairwise (fun x y => le x y = true)
  | [], _ => by simp [insertBy]
  | b :: t, h => by
    rw [List.pairwise_cons] at h
    obtain ⟨hb, ht⟩ := h
    unfold insertBy
    split
    · rename_i hab
      refine List.pairwise_cons.mpr ⟨?_, List.pairwise_cons.mpr ⟨hb, ht⟩⟩
      intro x hx
      rcases List.mem_cons.mp hx with rfl | hx
      · exact hab
      · exact htrans a b x hab (hb x hx)
    · rename_i hab
      have hba : le b a = true := (htot a b).resolve_left hab
      refine List.pairwise_cons.mpr ⟨?_, pairwise_insertBy le htrans htot a t ht⟩
      intro x hx
      rcases List.mem_cons.mp ((insertBy_perm le a t).mem_iff.mp hx) with rfl | hx
      · exact hba
      · exact hb x hx

theorem pairwise_sortBy {α : Type} (le : α → α → Bool)
    (htrans : ∀ a b c, le a b = true → le b c = true → le a c = true)
    (htot : ∀ a b, le a b = true ∨ le b a = true) :
    ∀ l : List α, (sortBy le l).Pairwise (fun x y => le x y = true)
  | [] => by simp [sortBy]
  | a :: t => by
    unfold sortBy
    exact pairwise_insertBy le htrans htot a _ (pairwise_sortBy le htrans htot t)

theorem charListLe_trans : ∀ as bs cs : List Char,
    charListLe as bs = true → charListLe bs cs = true → charListLe as cs = true
  | [], _, _, _, _ => rfl
  | _ :: _, [], _, hab, _ => by simp [charListLe] at hab
  | _ :: _, _ :: _, [], _, hbc => by simp [charListLe] at hbc
  | a :: as, b :: bs, c :: cs, hab, hbc => by
    simp only [charListLe] at hab hbc ⊢
    by_cases h1 : a.toNat < b.toNat <;> by_cases h2 : b.toNat < c.toNat <;>
      simp only [h1, h2, if_pos, if_neg, if_true, if_false] at hab hbc
    · have : a.toNat < c.toNat := by omega
      simp [this]
    · by_cases h3 : c.toNat < b.toNat
      · simp [h3] at hbc
      · have : a.toNat < c.toNat := by omega
        simp [this]
    · by_cases h3 : b.toNat < a.toNat
      · simp [h3] at hab
      · have : a.toNat < c.toNat := by omega
        simp [this]
    · by_cases h3 : b.toNat < a.toNat
      · simp [h3] at hab
      · by_cases h4 : c.toNat < b.toNat
        · simp [h4] at hbc
        · simp [h3] at hab
          simp [h4] at hbc
          have hac : ¬ a.toNat < c.toNat := by omega
          have hca : ¬ c.toNat < a.toNat := by omega
          simp [hac, hca]
          exact charListLe_trans as bs cs hab hbc

theorem charListLe_total : ∀ as bs : List Char,
    charListLe as bs = true ∨ charListLe bs as = true
  | [], _ => Or.inl rfl
  | _ :: _, [] => Or.inr rfl
  | a :: as, b :: bs => by
    by_cases h1 : a.toNat < b.toNat
    · left
      simp [charListLe, h1]
    · by_cases h2 : b.toNat < a.toNat
      · right
        simp [charListLe, h2]
      · rcases charListLe_total as bs with h | h
        · left
          simp [charListLe, h1, h2, h]
        · right
          simp [charListLe, h1, h2, h]

theorem strLe_trans (a b c : String) (hab : strLe a b = true)
    (hbc : strLe b c = true) : strLe a c = true :=
  charListLe_trans a.toList b.toList c.toList hab hbc

theorem strLe_total (a b : String) : strLe a b = true ∨ strLe b a = true :=
  charListLe_total a.toList b.toList

theorem pairwise_sortByNameDesc {α : Type} (key : α → String) (l : List α) :
    (sortByNameDesc key l).Pairwise (fun a b => strLe (key b) (key a) = true) := by
  unfold sortByNameDesc
  exact pairwise_sortBy (fun a b => strLe (key b) (key a))
    (fun a b c hab hbc => strLe_trans (key c) (key b) (key a) hbc hab)
    (fun a b => (strLe_total (key b) (key a)).imp id id) l

theorem pairwise_sortByIdDesc {α : Type} (key : α → Nat) (l : List α) :
    (sortByIdDesc key l).Pairwise (fun a b => key b ≤ key a) := by
  unfold sortByIdDesc
  refine (pairwise_sortBy (fun a b => decide (key b ≤ key a))
    (fun a b c hab hbc =>
      decide_eq_true (Nat.le_trans (of_decide_eq_true hbc) (of_decide_eq_true hab)))
    (fun a b => (Nat.le_total (key b) (key a)).imp decide_eq_true decide_eq_true)
    l).imp ?_
  exact fun h => of_decide_eq_true h

theorem mem_sortBy {α : Type} (le : α → α → Bool) (l : List α) (x : α) :
    x ∈ sortBy le l ↔ x ∈ l :=
  (sortBy_perm le l).mem_iff

theorem mem_replicateJoin {α β : Type} (l : List α) (f : α → List β) (x : α) :
    x ∈ l.flatMap (fun e => (f e).map (fun _ => e)) ↔ x ∈ l ∧ f x ≠ [] := by
  simp only [List.mem_flatMap, List.mem_map]
  constructor
  · rintro ⟨e, he, b, hb, rfl⟩
    exact ⟨he, fun hnil => by simp [hnil] at hb⟩
  · rintro ⟨hx, hne⟩
    obtain ⟨b, hb⟩ := List.exists_mem_of_ne_nil (f x) hne
    exact ⟨x, hx, b, hb, rfl⟩

theorem count_map_const {α β : Type} [DecidableEq α] (s : List β) (a x : α) :
    ((s.map (fun _ => a)).count x) = if a = x then s.length else 0 := by
  induction s with
  | nil => simp
  | cons b t ih =>
    simp only [List.map_cons, List.count_cons, ih]
    by_cases hax : a = x <;> simp [hax]

theorem count_replicateJoin {α β : Type} [DecidableEq α] (l : List α)
    (f : α → List β) (x : α) :
    (l.flatMap (fun e => (f e).map (fun _ => e))).count x = l.count x * (f x).length := by
  induction l with
  | nil => simp
  | cons a t ih =>
    simp only [List.flatMap_cons, List.count_append, ih, List.count_cons,
      count_map_const]
    by_cases hax : a = x
    · subst hax
      simp [Nat.add_mul]
      omega
    · simp [hax]

theorem filter_ne_nil_iff_any {α : Type} (p : α → Bool) (l : List α) :
    l.filter p ≠ [] ↔ l.any p = true := by
  simp [List.filter_eq_nil_iff, List.any_eq_true]

/-! Helper lemmas characterizing the queryset evaluations. -/

theorem baseAttr_ok_shape {α : Type} [DecidableEq α] {entities : List α}
    {eid euser : α → Nat} {ename : α → String} {assoc : Recipe → List Nat}
    {recipes : List Recipe} {p : Option String} {caller : Nat} {l : List α}
    (h : baseAttrGetQueryset entities eid euser ename assoc recipes p caller =
      Except.ok l) :
    ∃ n, parseAssignedOnly p = some n ∧
      l = (sortByNameDesc ename
        ((if n ≠ 0 then
            entities.flatMap (fun e =>
              (recipes.filter (fun r => decide (eid e ∈ assoc r))).map (fun _ => e))
          else entities).filter (fun e => decide (euser e = caller)))).dedup := by
  unfold baseAttrGetQueryset at h
  cases hp : parseAssignedOnly p with
  | none =>
    rw [hp] at h
    cases h
  | some n =>
    rw [hp] at h
    injection h with h
    exact ⟨n, rfl, h.symm⟩

theorem baseAttr_mem_user {α : Type} [DecidableEq α] {entities : List α}
    {eid euser : α → Nat} {ename : α → String} {assoc : Recipe → List Nat}
    {recipes : List Recipe} {p : Option String} {caller : Nat} {l : List α}
    (h : baseAttrGetQueryset entities eid euser ename assoc recipes p caller =
      Except.ok l) {x : α} (hx : x ∈ l) : euser x = caller := by
  obtain ⟨n, -, rfl⟩ := baseAttr_ok_shape h
  have hx1 := List.mem_dedup.mp hx
  unfold sortByNameDesc at hx1
  have hx2 := (mem_sortBy _ _ _).mp hx1
  exact of_decide_eq_true (List.mem_filter.mp hx2).2

theorem baseAttr_assigned_iff {α : Type} [DecidableEq α] {entities : List α}
    {eid euser : α → Nat} {ename : α → String} {assoc : Recipe → List Nat}
    {recipes : List Recipe} {s : String} {caller : Nat} {n : Int} {l : List α}
    (hparse : pyInt? s = some n) (hn : n ≠ 0)
    (h : baseAttrGetQueryset entities eid euser ename assoc recipes (some s)
      caller = Except.ok l) :
    (∀ x, x ∈ l ↔ x ∈ entities ∧ euser x = caller ∧
      ∃ r ∈ recipes, eid x ∈ assoc r) ∧
    l.Pairwise (fun a b => strLe (ename b) (ename a) = true) ∧ l.Nodup := by
  obtain ⟨m, hp, rfl⟩ := baseAttr_ok_shape h
  rw [parseAssignedOnly, hparse] at hp
  injection hp with hp
  subst hp
  rw [if_pos hn]
  refine ⟨?_, ?_, List.nodup_dedup _⟩
  · intro x
    rw [List.mem_dedup]
    unfold sortByNameDesc
    rw [mem_sortBy, List.mem_filter, mem_replicateJoin, filter_ne_nil_iff_any]
    simp only [List.any_eq_true, decide_eq_true_eq]
    tauto
  · exact (pairwise_sortByNameDesc ename _).sublist (List.dedup_sublist _)

theorem applyIdFilter_none (assocOf : Recipe → List Nat) (l : List Recipe) :
    applyIdFilter assocOf none l = Except.ok l :=
  rfl

theorem applyIdFilter_empty (assocOf : Recipe → List Nat) (l : List Recipe) :
    applyIdFilter assocOf (some "") l = Except.ok l :=
  rfl

theorem applyIdFilter_parsed (assocOf : Recipe → List Nat) {s : String}
    {ids : List Int} (l : List Recipe) (hs : s ≠ "")
    (hpi : params_to_ints s = Except.ok ids) :
    applyIdFilter assocOf (some s) l =
      Except.ok (filterByAssocIds assocOf ids l) := by
  show (if s = "" then Except.ok l
    else match params_to_ints s with
      | Except.error e => Except.error e
      | Except.ok ids => Except.ok (filterByAssocIds assocOf ids l)) =
    Except.ok (filterByAssocIds assocOf ids l)
  rw [if_neg hs, hpi]

theorem applyIdFilter_failed (assocOf : Recipe → List Nat) {s : String}
    {e : PyError} (l : List Recipe) (hs : s ≠ "")
    (hpi : params_to_ints s = Except.error e) :
    applyIdFilter assocOf (some s) l = Except.error e := by
  show (if s = "" then Except.ok l
    else match params_to_ints s with
      | Except.error e => Except.error e
      | Except.ok ids => Except.ok (filterByAssocIds assocOf ids l)) =
    Except.error e
  rw [if_neg hs, hpi]

theorem includeByIds_none (assocIds : List Nat) :
    includeByIds none assocIds = true :=
  rfl

theorem includeByIds_empty (assocIds : List Nat) :
    includeByIds (some "") assocIds = true :=
  rfl

theorem includeByIds_parsed {s : String} {ids : List Int} (assocIds : List Nat)
    (hs : s ≠ "") (hpi : params_to_ints s = Except.ok ids) :
    includeByIds (some s) assocIds =
      assocIds.any (fun a => decide (Int.ofNat a ∈ ids)) := by
  show (if s = "" then true
    else match params_to_ints s with
      | Except.error _ => false
      | Except.ok ids => assocIds.any (fun a => decide (Int.ofNat a ∈ ids))) =
    assocIds.any (fun a => decide (Int.ofNat a ∈ ids))
  rw [if_neg hs, hpi]

theorem applyIdFilter_ok_mem {assocOf : Recipe → List Nat} {p : Option String}
    {l l2 : List Recipe} (h : applyIdFilter assocOf p l = Except.ok l2)
    (x : Recipe) : x ∈ l2 ↔ x ∈ l ∧ includeByIds p (assocOf x) = true := by
  cases p with
  | none =>
    rw [applyIdFilter_none] at h
    injection h with h
    subst h
    simp [includeByIds_none]
  | some s =>
    by_cases hs : s = ""
    · subst hs
      rw [applyIdFilter_empty] at h
      injection h with h
      subst h
      simp [includeByIds_empty]
    · cases hpi : params_to_ints s with
      | error e =>
        rw [applyIdFilter_failed assocOf l hs hpi] at h
        cases h
      | ok ids =>
        rw [applyIdFilter_parsed assocOf l hs hpi] at h
        injection h with h
        subst h
        rw [includeByIds_parsed (assocOf x) hs hpi]
        unfold filterByAssocIds
        rw [mem_replicateJoin, filter_ne_nil_iff_any]

theorem applyIdFilter_ok_count {assocOf : Recipe → List Nat} {s : String}
    {ids : List Int} {l l2 : List Recipe} (hs : s ≠ "")
    (hpi : params_to_ints s = Except.ok ids)
    (h : applyIdFilter assocOf (some s) l = Except.ok l2) (x : Recipe) :
    l2.count x =
      l.count x *
        ((assocOf x).filter (fun a => decide (Int.ofNat a ∈ ids))).length := by
  rw [applyIdFilter_parsed assocOf l hs hpi] at h
  injection h with h
  subst h
  unfold filterByAssocIds
  exact count_replicateJoin l _ x

theorem recipeGetQueryset_ok_shape {db : DB} {tp ip : Option String}
    {caller : Nat} {l : List Recipe}
    (h : recipeGetQueryset db tp ip caller = Except.ok l) :
    ∃ l1 l2,
      applyIdFilter Recipe.tags tp
        (db.recipes.filter (fun r => decide (r.user = caller))) = Except.ok l1 ∧
      applyIdFilter Recipe.ingredients ip l1 = Except.ok l2 ∧
      l = sortByIdDesc Recipe.id l2 := by
  unfold recipeGetQueryset at h
  cases h1 : applyIdFilter Recipe.tags tp
      (db.recipes.filter (fun r => decide (r.user = caller))) with
  | error e =>
    rw [h1] at h
    cases h
  | ok l1 =>
    rw [h1] at h
    replace h : (match applyIdFilter Recipe.ingredients ip l1 with
      | Except.error e => Except.error e
      | Except.ok l2 => Except.ok (sortByIdDesc Recipe.id l2)) = Except.ok l := h
    cases h2 : applyIdFilter Recipe.ingredients ip l1 with
    | error e =>
      rw [h2] at h
      cases h
    | ok l2 =>
      rw [h2] at h
      injection h with h
      exact ⟨l1, l2, rfl, h2, h.symm⟩

theorem recipeQueryset_mem {db : DB} {tp ip : Option String} {caller : Nat}
    {l : List Recipe} (h : recipeGetQueryset db tp ip caller = Except.ok l)
    (x : Recipe) :
    x ∈ l ↔ x ∈ db.recipes ∧ x.user = caller ∧
      includeByIds tp x.tags = true ∧ includeByIds ip x.ingredients = true := by
  obtain ⟨l1, l2, h1, h2, rfl⟩ := recipeGetQueryset_ok_shape h
  unfold sortByIdDesc
  rw [mem_sortBy, applyIdFilter_ok_mem h2, applyIdFilter_ok_mem h1,
    List.mem_filter]
  simp only [decide_eq_true_eq]
  tauto

theorem recipeQueryset_sorted {db : DB} {tp ip : Option String} {caller : Nat}
    {l : List Recipe} (h : recipeGetQueryset db tp ip caller = Except.ok l) :
    l.Pairwise (fun a b => b.id ≤ a.id) := by
  obtain ⟨l1, l2, -, -, rfl⟩ := recipeGetQueryset_ok_shape h
  exact pairwise_sortByIdDesc Recipe.id l2

/-! Claim theorems. -/

/-- C1: every list queryset (tags, ingredients, recipes) and the recipe
detail lookup are filtered to rows whose owner equals the authenticated
caller, so an entity owned by a different user never appears in a list
result and its detail lookup misses. -/
theorem claim1_owner_scoping (db : DB)
    (attrParam tagsParam ingsParam : Option String) (callerB ownerA : Nat)
    (hne : ownerA ≠ callerB) (t : Tag) (i : Ingredient) (r : Recipe)
    (ht : t.user = ownerA) (hi : i.user = ownerA) (hr : r.user = ownerA) :
    (∀ l, tagGetQueryset db attrParam callerB = Except.ok l → t ∉ l) ∧
    (∀ l, ingredientGetQueryset db attrParam callerB = Except.ok l → i ∉ l) ∧
    (∀ l, recipeGetQueryset db tagsParam ingsParam callerB = Except.ok l →
      r ∉ l) ∧
    recipeDetail db callerB r.id ≠ some r := by
  refine ⟨?_, ?_, ?_, ?_⟩
  · intro l hl hmem
    unfold tagGetQueryset at hl
    exact hne (ht.symm.trans (baseAttr_mem_user hl hmem))
  · intro l hl hmem
    unfold ingredientGetQueryset at hl
    exact hne (hi.symm.trans (baseAttr_mem_user hl hmem))
  · intro l hl hmem
    exact hne (hr.symm.trans ((recipeQueryset_mem hl r).mp hmem).2.1)
  · intro hdet
    unfold recipeDetail at hdet
    cases hq : recipeGetQueryset db none none callerB with
    | error e =>
      rw [hq] at hdet
      cases hdet
    | ok l =>
      rw [hq] at hdet
      have hmem := List.mem_of_find?_eq_some hdet
      exact hne (hr.symm.trans ((recipeQueryset_mem hq r).mp hmem).2.1)

/-- Witness for claim1 at a concrete two-user database: user 2 requesting
never sees the rows of user 1. -/
theorem claim1_owner_scoping_witness :
    (1 : Nat) ≠ 2 ∧
    ((∀ l, tagGetQueryset exDb none 2 = Except.ok l → exTagOwned ∉ l) ∧
     (∀ l, ingredientGetQueryset exDb none 2 = Except.ok l → exIngOwned ∉ l) ∧
     (∀ l, recipeGetQueryset exDb none none 2 = Except.ok l →
       exRecipeOwned ∉ l) ∧
     recipeDetail exDb 2 exRecipeOwned.id ≠ some exRecipeOwned) :=
  ⟨by decide, claim1_owner_scoping exDb none none none 2 1 (by decide)
    exTagOwned exIngOwned exRecipeOwned rfl rfl rfl⟩

/-- C2 (counterexample): with a truthy assigned_only flag the code returns
a tag of the caller that no recipe of the caller references — it is
referenced only by a recipe of user 2 — contradicting the claim that the
result is exactly the set of tags of the caller referenced by at least one
recipe of the caller.  The join `recipe__isnull=False` does not restrict
the referencing recipe to the caller. -/
theorem claim2_assigned_only_counterexample :
    tagGetQueryset exDbCross (some "1") 1 = Except.ok [exCrossTag] ∧
    ¬ specAssignedToCallerRecipe exDbCross 1 exCrossTag :=
  ⟨by decide, by decide⟩

/-- C2 (amended): with a truthy assigned_only flag the tag and ingredient
list results are exactly the entities of the caller referenced by at least
one recipe of ANY user, ordered by name descending, each entity appearing
at most once even when referenced by multiple recipes. -/
theorem claim2_assigned_only_amended (db : DB) (s : String) (caller : Nat)
    (n : Int) (hparse : pyInt? s = some n) (hn : n ≠ 0)
    (ltags : List Tag) (lings : List Ingredient)
    (htq : tagGetQueryset db (some s) caller = Except.ok ltags)
    (hiq : ingredientGetQueryset db (some s) caller = Except.ok lings) :
    ((∀ t, t ∈ ltags ↔ t ∈ db.tags ∧ t.user = caller ∧
        ∃ r ∈ db.recipes, t.id ∈ r.tags) ∧
      ltags.Pairwise (fun a b => strLe b.name a.name = true) ∧ ltags.Nodup) ∧
    ((∀ i, i ∈ lings ↔ i ∈ db.ingredients ∧ i.user = caller ∧
        ∃ r ∈ db.recipes, i.id ∈ r.ingredients) ∧
      lings.Pairwise (fun a b => strLe b.name a.name = true) ∧ lings.Nodup) := by
  constructor
  · exact baseAttr_assigned_iff hparse hn htq
  · exact baseAttr_assigned_iff hparse hn hiq

/-- Witness for the amended claim2 at a concrete database. -/
theorem claim2_assigned_only_amended_witness :
    pyInt? "1" = some 1 ∧ (1 : Int) ≠ 0 ∧
    tagGetQueryset exDb (some "1") 1 = Except.ok [exTagOwned] ∧
    ingredientGetQueryset exDb (some "1") 1 = Except.ok [exIngOwned] ∧
    (∀ t, t ∈ [exTagOwned] ↔ t ∈ exDb.tags ∧ t.user = 1 ∧
      ∃ r ∈ exDb.recipes, t.id ∈ r.tags) :=
  ⟨by decide, by decide, by decide, by decide,
    (claim2_assigned_only_amended exDb "1" 1 1 (by decide) (by decide)
      [exTagOwned] [exIngOwned] (by decide) (by decide)).1.1⟩

/-- C3: the recipe list contains only recipes owned by the caller, ordered
by primary key descending (the auto-increment id is the insertion counter,
so most recent first); a recipe is included iff it passes both id filters,
where a filter passes when its parameter is absent or empty, or when at
least one of the association ids of the recipe is among the supplied
comma-separated ids (inclusive OR within a filter, AND across the two
filters when both are given). -/
theorem claim3_recipe_list_filtering (db : DB) (tp ip : Option String)
    (caller : Nat) (l : List Recipe)
    (h : recipeGetQueryset db tp ip caller = Except.ok l) :
    (∀ r ∈ l, r.user = caller) ∧
    l.Pairwise (fun a b => b.id ≤ a.id) ∧
    (∀ r, r ∈ l ↔ r ∈ db.recipes ∧ r.user = caller ∧
      includeByIds tp r.tags = true ∧ includeByIds ip r.ingredients = true) := by
  refine ⟨?_, recipeQueryset_sorted h, fun r => recipeQueryset_mem h r⟩
  intro r hr
  exact ((recipeQueryset_mem h r).mp hr).2.1

/-- Witness for claim3 at a concrete database and a tags filter. -/
theorem claim3_recipe_list_filtering_witness :
    recipeGetQueryset exDb (some "1") none 1 = Except.ok [exRecipeOwned] ∧
    (∀ r, r ∈ [exRecipeOwned] ↔ r ∈ exDb.recipes ∧ r.user = 1 ∧
      includeByIds (some "1") r.tags = true ∧
      includeByIds none r.ingredients = true) :=
  ⟨by decide, (claim3_recipe_list_filtering exDb (some "1") none 1
    [exRecipeOwned] (by decide)).2.2⟩

/-- C4: creation binds the owner of the new entity to the authenticated
caller regardless of any owner value supplied in the payload (the
requestedUser payload field is never read), and no subsequent operation —
full update, partial update, image upload — changes the owner reference. -/
theorem claim4_ownership_immutable (tp ip : AttrPayload) (rp : RecipePayload)
    (pp : PatchPayload) (imgp : ImagePayload) (newId caller : Nat)
    (r : Recipe) :
    (tagPerformCreate tp newId caller).user = caller ∧
    (ingredientPerformCreate ip newId caller).user = caller ∧
    (recipePerformCreate rp newId caller).user = caller ∧
    (fullUpdateRecipe rp r).user = r.user ∧
    (patchUpdateRecipe pp r).user = r.user ∧
    ((upload_image r imgp).2).user = r.user := by
  refine ⟨rfl, rfl, rfl, rfl, rfl, ?_⟩
  cases himg : imgp.is_image <;> simp [upload_image, himg]

/-- Helper: a malformed tags parameter propagates its ValueError out of
the recipe queryset. -/
theorem recipeGetQueryset_tags_err {db : DB} {s : String}
    {other : Option String} {caller : Nat} (hs : s ≠ "")
    (hbad : params_to_ints s = Except.error PyError.valueError) :
    recipeGetQueryset db (some s) other caller =
      Except.error PyError.valueError := by
  unfold recipeGetQueryset
  rw [applyIdFilter_failed _ _ hs hbad]

/-- Helper: a malformed ingredients parameter propagates its ValueError
out of the recipe queryset when the tags parameter is absent. -/
theorem recipeGetQueryset_ings_err {db : DB} {s : String} {caller : Nat}
    (hs : s ≠ "")
    (hbad : params_to_ints s = Except.error PyError.valueError) :
    recipeGetQueryset db none (some s) caller =
      Except.error PyError.valueError := by
  show (match applyIdFilter Recipe.ingredients (some s)
      (db.recipes.filter (fun r => decide (r.user = caller))) with
    | Except.error e => Except.error e
    | Except.ok l2 => Except.ok (sortByIdDesc Recipe.id l2)) =
    Except.error PyError.valueError
  rw [applyIdFilter_failed _ _ hs hbad]

/-- C5 (counterexample): a malformed tags id list makes the list request
end in an unhandled error, and not in the 400 validation outcome the claim
asserts. -/
theorem claim5_malformed_ids_counterexample :
    recipeListRequest exDb (some "abc") none 1 = Outcome.serverError ∧
    recipeListRequest exDb (some "abc") none 1 ≠ Outcome.clientError :=
  ⟨by decide, by decide⟩

/-- C5 (amended): a recipe list request whose tags or ingredients
parameter is a malformed id list (a segment on which int() fails, such as
a non-numeric token or an empty segment) raises an uncaught ValueError and
surfaces as an unhandled server error, not as a 400 validation response. -/
theorem claim5_malformed_ids_amended (db : DB) (s : String)
    (other : Option String) (caller : Nat) (hs : s ≠ "")
    (hbad : params_to_ints s = Except.error PyError.valueError) :
    recipeListRequest db (some s) other caller = Outcome.serverError ∧
    recipeListRequest db none (some s) caller = Outcome.serverError := by
  constructor
  · unfold recipeListRequest
    rw [recipeGetQueryset_tags_err hs hbad]
  · unfold recipeListRequest
    rw [recipeGetQueryset_ings_err hs hbad]

/-- Witness for the amended claim5 at the malformed parameter "abc". -/
theorem claim5_malformed_ids_amended_witness :
    ("abc" : String) ≠ "" ∧
    params_to_ints "abc" = Except.error PyError.valueError ∧
    (recipeListRequest exDb (some "abc") none 1 = Outcome.serverError ∧
     recipeListRequest exDb none (some "abc") 1 = Outcome.serverError) :=
  ⟨by decide, by decide,
    claim5_malformed_ids_amended exDb "abc" none 1 (by decide) (by decide)⟩

/-- C7: a full update (PUT) whose payload omits the tags field clears all
existing tag associations, while a partial update (PATCH) supplying only
tags replaces the tag set and leaves title, time_minutes and price
unchanged. -/
theorem claim7_put_clears_patch_preserves (r : Recipe) (title : String)
    (tm : Nat) (price : Rat) (ing : Option (List Nat)) (ru ru2 : Option Nat)
    (ts : List Nat) :
    (fullUpdateRecipe (putPayloadNoTags title tm price ing ru) r).tags = [] ∧
    (patchUpdateRecipe (patchPayloadOnlyTags ts ru2) r).tags = ts ∧
    (patchUpdateRecipe (patchPayloadOnlyTags ts ru2) r).title = r.title ∧
    (patchUpdateRecipe (patchPayloadOnlyTags ts ru2) r).time_minutes =
      r.time_minutes ∧
    (patchUpdateRecipe (patchPayloadOnlyTags ts ru2) r).price = r.price :=
  ⟨rfl, rfl, rfl, rfl, rfl⟩

/-- C8: posting a non-image payload to the image-upload endpoint yields
400 and leaves the recipe — its stored image reference and every other
field — unchanged; posting a valid image yields 200 carrying the stored
accessible location, which is persisted on the recipe. -/
theorem claim8_upload_image (r : Recipe) (p : ImagePayload) :
    (p.is_image = false →
      upload_image r p = (UploadResponse.badRequest400, r)) ∧
    (p.is_image = true → ∃ url, upload_image r p =
      (UploadResponse.ok200 (some url), { r with image := some url })) := by
  constructor
  · intro h
    simp [upload_image, h]
  · intro h
    exact ⟨"uploads/recipe/" ++ p.filename, by simp [upload_image, h]⟩

/-- Witness for claim8: both branches at a concrete recipe and payloads. -/
theorem claim8_upload_image_witness :
    (exBadPayload.is_image = false ∧
      upload_image exUploadRecipe exBadPayload =
        (UploadResponse.badRequest400, exUploadRecipe)) ∧
    (exGoodPayload.is_image = true ∧
      ∃ url, upload_image exUploadRecipe exGoodPayload =
        (UploadResponse.ok200 (some url),
          { exUploadRecipe with image := some url })) :=
  ⟨⟨rfl, (claim8_upload_image exUploadRecipe exBadPayload).1 rfl⟩,
   ⟨rfl, (claim8_upload_image exUploadRecipe exGoodPayload).2 rfl⟩⟩

/-- C6: token issuance yields a token exactly when both email and password
are supplied (present and non-blank) and match a stored user; every
failure — missing field, unknown email, wrong password — yields the same
undistinguished 400 outcome (under the unique-email table constraint). -/
theorem claim6_token_issuance (users : List MyUser)
    (email password : Option String)
    (huniq : users.Pairwise (fun u v => u.email ≠ v.email)) :
    ((∃ tok, createTokenRequest users email password = TokenOutcome.ok tok) ↔
      (∃ e p, email = some e ∧ password = some p ∧ e ≠ "" ∧ p ≠ "" ∧
        ∃ u ∈ users, u.email = e ∧ checkPassword p u = true)) ∧
    ((∀ tok, createTokenRequest users email password ≠ TokenOutcome.ok tok) →
      createTokenRequest users email password = TokenOutcome.badRequest) := by
  have hfail : (∀ tok,
      createTokenRequest users email password ≠ TokenOutcome.ok tok) →
      createTokenRequest users email password = TokenOutcome.badRequest := by
    intro hno
    cases hres : createTokenRequest users email password with
    | ok t => exact absurd hres (hno t)
    | badRequest => rfl
  refine ⟨?_, hfail⟩
  cases email with
  | none =>
    constructor
    · rintro ⟨tok, htok⟩
      cases htok
    · rintro ⟨e, p, he, -⟩
      cases he
  | some e =>
    cases password with
    | none =>
      constructor
      · rintro ⟨tok, htok⟩
        cases htok
      · rintro ⟨e', p', -, hp, -⟩
        cases hp
    | some p =>
      have hred : createTokenRequest users (some e) (some p) =
          (if e = "" then TokenOutcome.badRequest
           else if p = "" then TokenOutcome.badRequest
           else
             match users.find? (fun u => u.email == e) with
             | some u =>
               if checkPassword p u then TokenOutcome.ok ("token:" ++ e)
               else TokenOutcome.badRequest
             | none => TokenOutcome.badRequest) := rfl
      rw [hred]
      by_cases he : e = ""
      · rw [if_pos he]
        constructor
        · rintro ⟨tok, htok⟩
          cases htok
        · rintro ⟨e', p', he', -, hne, -⟩
          injection he' with he'
          exact absurd (he'.symm.trans he) hne
      · rw [if_neg he]
        by_cases hp : p = ""
        · rw [if_pos hp]
          constructor
          · rintro ⟨tok, htok⟩
            cases htok
          · rintro ⟨e', p', -, hp', -, hnp, -⟩
            injection hp' with hp'
            exact absurd (hp'.symm.trans hp) hnp
        · rw [if_neg hp]
          cases hf : users.find? (fun u => u.email == e) with
          | none =>
            constructor
            · rintro ⟨tok, htok⟩
              cases htok
            · rintro ⟨e', p', he', -, -, -, u, hu, hmail, -⟩
              injection he' with he'
              subst he'
              have := List.find?_eq_none.mp hf u hu
              simp [hmail] at this
          | some u =>
            have hmr : (match some u with
              | some u =>
                if checkPassword p u then TokenOutcome.ok ("token:" ++ e)
                else TokenOutcome.badRequest
              | none => TokenOutcome.badRequest) =
                (if checkPassword p u then TokenOutcome.ok ("token:" ++ e)
                 else TokenOutcome.badRequest) := rfl
            rw [hmr]
            by_cases hchk : checkPassword p u = true
            · rw [if_pos hchk]
              constructor
              · rintro -
                refine ⟨e, p, rfl, rfl, he, hp, u,
                  List.mem_of_find?_eq_some hf, ?_, hchk⟩
                have := List.find?_some hf
                exact of_decide_eq_true (by simpa using this)
              · rintro -
                exact ⟨"token:" ++ e, rfl⟩
            · rw [if_neg hchk]
              constructor
              · rintro ⟨tok, htok⟩
                cases htok
              · rintro ⟨e', p', he', hp', -, -, u', hu', hmail', hchk'⟩
                injection he' with he'
                injection hp' with hp'
                subst he'
                subst hp'
                have humem : u ∈ users := List.mem_of_find?_eq_some hf
                have humail : u.email = e := by
                  have := List.find?_some hf
                  exact of_decide_eq_true (by simpa using this)
                have hsymm : Symmetric (fun u v : MyUser => u.email ≠ v.email) :=
                  fun a b hab heq => hab heq.symm
                by_cases huu : u' = u
                · subst huu
                  exact (hchk hchk').elim
                · exact absurd (hmail'.trans humail.symm)
                    (huniq.forall hsymm hu' humem huu)

/-- Witness for claim6: a stored user, the matching credentials succeed. -/
theorem claim6_token_issuance_witness :
    [exAuthUser].Pairwise (fun u v => u.email ≠ v.email) ∧
    ((∃ tok, createTokenRequest [exAuthUser] (some "test@test.com")
        (some "testpass1234") = TokenOutcome.ok tok) ↔
      (∃ e p, some "test@test.com" = some e ∧ some "testpass1234" = some p ∧
        e ≠ "" ∧ p ≠ "" ∧
        ∃ u ∈ [exAuthUser], u.email = e ∧ checkPassword p u = true)) :=
  ⟨by simp,
    (claim6_token_issuance [exAuthUser] (some "test@test.com")
      (some "testpass1234") (by simp)).1⟩

/-- C9: create_user raises ValueError on an empty email (persisting no
row), otherwise persists a user carrying the normalized email and only the
hashed password — never the plaintext; create_superuser additionally sets
both the staff and the superuser flag. -/
theorem claim9_create_user (db : List MyUser) (email : String)
    (password : Option String) (uname : String) (pwd : String) :
    (email = "" →
      create_user db email password uname = Except.error PyError.valueError ∧
      create_superuser db email pwd = Except.error PyError.valueError) ∧
    (email ≠ "" → ∃ u,
      create_user db email password uname = Except.ok (u, db ++ [u]) ∧
      u.email = normalize_email email ∧
      u.passwordHash = hashPassword password ∧
      (∀ raw, password = some raw → u.passwordHash ≠ raw)) ∧
    (email ≠ "" → ∃ su,
      create_superuser db email pwd = Except.ok (su, db ++ [su]) ∧
      su.is_staff = true ∧ su.is_superuser = true ∧
      su.email = normalize_email email ∧ su.passwordHash ≠ pwd) := by
  have hashNe : ∀ raw : String, hashPassword (some raw) ≠ raw := by
    intro raw heq
    have heq' : "pbkdf2_sha256$" ++ raw = raw := heq
    have hlen := congrArg String.length heq'
    rw [String.length_append] at hlen
    have h14 : ("pbkdf2_sha256$" : String).length = 14 := rfl
    omega
  refine ⟨?_, ?_, ?_⟩
  · intro h
    subst h
    constructor
    · unfold create_user
      rw [if_pos rfl]
    · rfl
  · intro h
    have hcu : create_user db email password uname =
        Except.ok (freshUser email uname password,
          db ++ [freshUser email uname password]) := by
      unfold create_user freshUser
      rw [if_neg h]
    refine ⟨_, hcu, rfl, rfl, ?_⟩
    intro raw hraw
    subst hraw
    exact hashNe raw
  · intro h
    have hcu : create_user db email (some pwd) "" =
        Except.ok (freshUser email "" (some pwd),
          db ++ [freshUser email "" (some pwd)]) := by
      unfold create_user freshUser
      rw [if_neg h]
    have hcs : create_superuser db email pwd =
        Except.ok (freshSuperuser email pwd,
          db ++ [freshSuperuser email pwd]) := by
      unfold create_superuser
      rw [hcu]
      rfl
    exact ⟨_, hcs, rfl, rfl, rfl, hashNe pwd⟩

/-- Witness for claim9 at a concrete email whose domain gets lowercased. -/
theorem claim9_create_user_witness :
    ("Test@EXAMPLE.Com" : String) ≠ "" ∧
    normalize_email "Test@EXAMPLE.Com" = "Test@example.com" ∧
    (∃ u, create_user [] "Test@EXAMPLE.Com" (some "secretpw") "n" =
        Except.ok (u, [] ++ [u]) ∧
      u.email = normalize_email "Test@EXAMPLE.Com" ∧
      u.passwordHash = hashPassword (some "secretpw") ∧
      (∀ raw, some "secretpw" = some raw → u.passwordHash ≠ raw)) :=
  ⟨by decide, by decide,
    (claim9_create_user [] "Test@EXAMPLE.Com" (some "secretpw") "n"
      "secretpw").2.1 (by decide)⟩

/-- C10: the recipe list applies no deduplication: with a tags filter, a
recipe of the caller occurring once in the table appears in the response
once per tag association matching the supplied ids, so a recipe matching
more than one supplied tag id appears more than once. -/
theorem claim10_recipe_list_duplicates (db : DB) (s : String) (ids : List Int)
    (caller : Nat) (r : Recipe) (l : List Recipe) (hs : s ≠ "")
    (hparse : params_to_ints s = Except.ok ids)
    (hrow : db.recipes.count r = 1) (huser : r.user = caller)
    (h : recipeGetQueryset db (some s) none caller = Except.ok l) :
    l.count r =
      (r.tags.filter (fun a => decide (Int.ofNat a ∈ ids))).length := by
  obtain ⟨l1, l2, h1, h2, rfl⟩ := recipeGetQueryset_ok_shape h
  rw [applyIdFilter_none] at h2
  injection h2 with h2
  subst h2
  unfold sortByIdDesc
  rw [(sortBy_perm _ _).count_eq]
  rw [applyIdFilter_ok_count hs hparse h1 r]
  have hcf : (db.recipes.filter (fun x => decide (x.user = caller))).count r =
      db.recipes.count r :=
    List.count_filter (decide_eq_true huser)
  rw [hcf, hrow, one_mul]

/-- Witness for claim10: a recipe with two matching tag associations
appears twice in one response. -/
theorem claim10_recipe_list_duplicates_witness :
    ("1,2" : String) ≠ "" ∧
    params_to_ints "1,2" = Except.ok [1, 2] ∧
    exDbDup.recipes.count exDupRecipe = 1 ∧
    recipeGetQueryset exDbDup (some "1,2") none 1 =
      Except.ok [exDupRecipe, exDupRecipe] ∧
    [exDupRecipe, exDupRecipe].count exDupRecipe =
      (exDupRecipe.tags.filter
        (fun a => decide (Int.ofNat a ∈ [(1 : Int), 2]))).length ∧
    [exDupRecipe, exDupRecipe].count exDupRecipe = 2 :=
  ⟨by decide, by decide, by decide, by decide,
    claim10_recipe_list_duplicates exDbDup "1,2" [1, 2] 1 exDupRecipe
      [exDupRecipe, exDupRecipe] (by decide) (by decide) (by decide) rfl
      (by decide),
    by decide⟩

end RecipeApp
